import Mathlib

/-!
# Vercel Terraform provider: project-domain resource and file data source

A shallow embedding of `vercel/resource_project_domain.go` and
`vercel/data_source_file.go`.

Go strings are embedded as Lean `String`s.  The only separator the provider ever
splits on is the one-byte string "/", and the byte 0x2F occurs in UTF-8 text only
as the character '/', so cutting a string at the character '/' is the same as
cutting its bytes at "/".
-/

set_option autoImplicit false

namespace Vercel

/-! ## Go standard library: `strings.Split` -/

namespace strings

/-- Cut a character sequence at every occurrence of `sep`; the result has one more
segment than there are separators (so the empty sequence gives one empty segment). -/
def splitChars (sep : Char) : List Char → List (List Char)
  | [] => [[]]
  | c :: cs =>
    if c = sep then
      [] :: splitChars sep cs
    else
      match splitChars sep cs with
      | [] => [[c]]
      | seg :: rest => (c :: seg) :: rest

/-- Go `strings.Split(s, sep)` for a separator `sep` that is one byte long. -/
def Split (s : String) (sep : Char) : List String :=
  (splitChars sep s.data).map String.mk

/-- Number of occurrences of the character `sep` in `s` (Go `strings.Count`). -/
def Count (s : String) (sep : Char) : Nat :=
  s.data.count sep

end strings

/-! ## `splitProjectDomainID` -/

/-- Source: `splitProjectDomainID` in `resource_project_domain.go`.
Returns `(teamID, projectID, domain, ok)`. -/
def splitProjectDomainID (id : String) : String × String × String × Bool :=
  let attributes := strings.Split id '/'
  if attributes.length = 2 then
    -- we have project_id/domain
    ("", attributes.getD 0 "", attributes.getD 1 "", true)
  else if attributes.length = 3 then
    -- we have team_id/project_id/domain
    (attributes.getD 0 "", attributes.getD 1 "", attributes.getD 2 "", true)
  else
    ("", "", "", false)

/-! ## Plugin framework: diagnostics, typed values, plan / state / config -/

namespace diag

inductive Severity
  | Error
  | Warning
deriving DecidableEq, Repr

structure Diagnostic where
  Severity : Severity
  Summary : String
  Detail : String
deriving DecidableEq, Repr

abbrev Diagnostics := List Diagnostic

def NewErrorDiagnostic (summary detail : String) : Diagnostic :=
  { Severity := Severity.Error, Summary := summary, Detail := detail }

/-- Framework `Diagnostics.Append`: adds each diagnostic that is not already present. -/
def Append (diags : Diagnostics) (new : Diagnostics) : Diagnostics :=
  new.foldl (fun acc d => if d ∈ acc then acc else acc ++ [d]) diags

/-- Framework `Diagnostics.AddError`. -/
def AddError (diags : Diagnostics) (summary detail : String) : Diagnostics :=
  Append diags [NewErrorDiagnostic summary detail]

/-- Framework `Diagnostics.HasError`. -/
def HasError (diags : Diagnostics) : Bool :=
  diags.any (fun d => decide (d.Severity = Severity.Error))

end diag

/-- Framework `types.String`; the provider reads only `Value`. -/
structure TypesString where
  Unknown : Bool
  Null : Bool
  Value : String
deriving DecidableEq, Repr

/-- Framework `types.Int64`. -/
structure TypesInt64 where
  Unknown : Bool
  Null : Bool
  Value : Int
deriving DecidableEq, Repr

namespace tfsdk

/-- The schema-directed conversion between the raw value the framework stores and the Go
struct `α` the provider works with: `decode` is what `Get` writes into its target together
with the diagnostics it reports, `encode` the diagnostics `Set` reports for a value. -/
structure Schema (α : Type) where
  decode : Option α → α × diag.Diagnostics
  encode : α → diag.Diagnostics

/-- Framework `tfsdk.State`; a `Raw` of `none` is the null value (no resource). -/
structure State (α : Type) where
  Raw : Option α
  Schema : Schema α

/-- Framework `tfsdk.Plan`. -/
structure Plan (α : Type) where
  Raw : Option α
  Schema : Schema α

/-- Framework `tfsdk.Config`. -/
structure Config (α : Type) where
  Raw : Option α
  Schema : Schema α

def State.Get {α : Type} (s : State α) : α × diag.Diagnostics :=
  s.Schema.decode s.Raw

def Plan.Get {α : Type} (p : Plan α) : α × diag.Diagnostics :=
  p.Schema.decode p.Raw

def Config.Get {α : Type} (c : Config α) : α × diag.Diagnostics :=
  c.Schema.decode c.Raw

/-- Framework `State.Set`: the raw value is replaced only when the conversion reports no
error. -/
def State.Set {α : Type} (s : State α) (val : α) : State α × diag.Diagnostics :=
  let diags := s.Schema.encode val
  if diag.HasError diags then (s, diags) else ({ s with Raw := some val }, diags)

/-- Framework `State.RemoveResource`: the raw value becomes null. -/
def State.RemoveResource {α : Type} (s : State α) : State α :=
  { s with Raw := none }

end tfsdk

/-! ## The API client, as the provider sees it -/

/-- Modelled from the spec: a Go `error` returned by the client or the operating system,
reduced to what the provider observes: its message `Error()` and, when it is a
`client.APIError`, the HTTP status code of that error. -/
structure GoError where
  Error : String
  APIStatusCode : Option Int
deriving DecidableEq, Repr

namespace client

/-- Modelled from the spec: `client.NotFound`, defined in the client package: the client
returns "a typed error distinguishable as not found vs other failures"; an error is not
found when it is a `client.APIError` whose status code is 404, and `nil` is not. -/
def NotFound (err : Option GoError) : Bool :=
  match err with
  | none => false
  | some e => decide (e.APIStatusCode = some 404)

/-- Modelled from the spec: the project object of the remote API ("a deployable
application unit"); `Create` discards it. -/
structure ProjectResponse where
  ID : String
  Name : String
deriving DecidableEq, Repr

/-- Modelled from the spec: the project-domain object of the remote API (domain name,
redirect target, status code, git branch, team/project association). -/
structure ProjectDomainResponse where
  Name : String
  ProjectID : String
  TeamID : String
  Redirect : Option String
  RedirectStatusCode : Option Int
  GitBranch : Option String
deriving DecidableEq, Repr

/-- Modelled from the spec: the body of the create call. -/
structure CreateProjectDomainRequest where
  Name : String
  GitBranch : Option String
  Redirect : Option String
  RedirectStatusCode : Option Int
deriving DecidableEq, Repr

/-- The remote calls the project-domain resource makes, each returning Go's
`(result, err)` pair. -/
structure Client where
  GetProject : String → String → Bool → ProjectResponse × Option GoError
  CreateProjectDomain : String → String → CreateProjectDomainRequest →
    ProjectDomainResponse × Option GoError
  GetProjectDomain : String → String → String → ProjectDomainResponse × Option GoError
  DeleteProjectDomain : String → String → String → Option GoError

/-- One remote call, with its arguments, as recorded in the order the provider makes
them. -/
inductive Call
  | GetProject (projectID teamID : String) (shouldFetchEnvironmentVariables : Bool)
  | CreateProjectDomain (projectID teamID : String) (request : CreateProjectDomainRequest)
  | GetProjectDomain (projectID domain teamID : String)
  | DeleteProjectDomain (projectID domain teamID : String)
deriving DecidableEq, Repr

end client

/-! ## The project-domain resource -/

/-- Modelled from the spec: the `ProjectDomain` entity of section 3 (the Go struct is
declared in another file of the package). -/
structure ProjectDomain where
  ProjectID : TypesString
  TeamID : TypesString
  ID : TypesString
  Domain : TypesString
  Redirect : TypesString
  RedirectStatusCode : TypesInt64
  GitBranch : TypesString
deriving DecidableEq, Repr

/-- The helpers `convertResponseToProjectDomain` and `(ProjectDomain).toCreateRequest`, which
are defined in another file of the package; the resource is parametric in them. -/
structure Conversions where
  convertResponseToProjectDomain : client.ProjectDomainResponse → ProjectDomain
  toCreateRequest : ProjectDomain → client.CreateProjectDomainRequest

namespace resource

structure CreateRequest where
  Plan : tfsdk.Plan ProjectDomain

structure CreateResponse where
  State : tfsdk.State ProjectDomain
  Diagnostics : diag.Diagnostics

structure ReadRequest where
  State : tfsdk.State ProjectDomain

structure ReadResponse where
  State : tfsdk.State ProjectDomain
  Diagnostics : diag.Diagnostics

structure DeleteRequest where
  State : tfsdk.State ProjectDomain

structure DeleteResponse where
  State : tfsdk.State ProjectDomain
  Diagnostics : diag.Diagnostics

structure ImportStateRequest where
  ID : String

structure ImportStateResponse where
  State : tfsdk.State ProjectDomain
  Diagnostics : diag.Diagnostics

end resource

namespace projectDomainResource

open client in
/-- Source: `(*projectDomainResource).Create`.  Returns the response as the handler leaves
it and the remote calls it made. -/
def Create (r : client.Client) (h : Conversions) (req : resource.CreateRequest)
    (resp : resource.CreateResponse) : resource.CreateResponse × List client.Call :=
  let got := req.Plan.Get
  let plan := got.1
  let diags := got.2
  let resp : resource.CreateResponse :=
    { resp with Diagnostics := diag.Append resp.Diagnostics diags }
  if diag.HasError resp.Diagnostics then
    (resp, [])
  else
    let err := (r.GetProject plan.ProjectID.Value plan.TeamID.Value false).2
    let calls := [Call.GetProject plan.ProjectID.Value plan.TeamID.Value false]
    if NotFound err then
      ({ resp with Diagnostics := (diag.AddError resp.Diagnostics
          "Error creating project domain"
          "Could not find project, please make sure both the project_id and team_id match the project and team you wish to deploy to.") },
        calls)
    else
      let res := r.CreateProjectDomain plan.ProjectID.Value plan.TeamID.Value
        (h.toCreateRequest plan)
      let out := res.1
      let err := res.2
      let calls := calls ++
        [Call.CreateProjectDomain plan.ProjectID.Value plan.TeamID.Value (h.toCreateRequest plan)]
      match err with
      | some e =>
        ({ resp with Diagnostics := (diag.AddError resp.Diagnostics
            "Error adding domain to project"
            ("Could not add domain " ++ plan.Domain.Value ++ " to project " ++
              plan.ProjectID.Value ++ ", unexpected error: " ++ e.Error)) },
          calls)
      | none =>
        let result := h.convertResponseToProjectDomain out
        let set := resp.State.Set result
        ({ State := set.1, Diagnostics := diag.Append resp.Diagnostics set.2 }, calls)

open client in
/-- Source: `(*projectDomainResource).Read`. -/
def Read (r : client.Client) (h : Conversions) (req : resource.ReadRequest)
    (resp : resource.ReadResponse) : resource.ReadResponse × List client.Call :=
  let got := req.State.Get
  let state := got.1
  let diags := got.2
  let resp : resource.ReadResponse :=
    { resp with Diagnostics := diag.Append resp.Diagnostics diags }
  if diag.HasError resp.Diagnostics then
    (resp, [])
  else
    let res := r.GetProjectDomain state.ProjectID.Value state.Domain.Value state.TeamID.Value
    let out := res.1
    let err := res.2
    let calls := [Call.GetProjectDomain state.ProjectID.Value state.Domain.Value state.TeamID.Value]
    if NotFound err then
      ({ resp with State := resp.State.RemoveResource }, calls)
    else
      match err with
      | some e =>
        ({ resp with Diagnostics := (diag.AddError resp.Diagnostics
            "Error reading project domain"
            ("Could not get domain " ++ state.Domain.Value ++ " for project " ++
              state.ProjectID.Value ++ ", unexpected error: " ++ e.Error)) },
          calls)
      | none =>
        let result := h.convertResponseToProjectDomain out
        let set := resp.State.Set result
        ({ State := set.1, Diagnostics := diag.Append resp.Diagnostics set.2 }, calls)

open client in
/-- Source: `(*projectDomainResource).Delete`. -/
def Delete (r : client.Client) (req : resource.DeleteRequest)
    (resp : resource.DeleteResponse) : resource.DeleteResponse × List client.Call :=
  let got := req.State.Get
  let state := got.1
  let diags := got.2
  let resp : resource.DeleteResponse :=
    { resp with Diagnostics := diag.Append resp.Diagnostics diags }
  if diag.HasError resp.Diagnostics then
    (resp, [])
  else
    let err := r.DeleteProjectDomain state.ProjectID.Value state.Domain.Value state.TeamID.Value
    let calls := [Call.DeleteProjectDomain state.ProjectID.Value state.Domain.Value state.TeamID.Value]
    if NotFound err then
      -- The domain is already gone - do nothing.
      ({ resp with State := resp.State.RemoveResource }, calls)
    else
      match err with
      | some e =>
        ({ resp with Diagnostics := (diag.AddError resp.Diagnostics
            "Error deleting project"
            ("Could not delete domain " ++ state.Domain.Value ++ " for project " ++
              state.ProjectID.Value ++ ", unexpected error: " ++ e.Error)) },
          calls)
      | none => (resp, calls)

open client in
/-- Source: `(*projectDomainResource).ImportState`.  The branch taken when the id does not
parse adds its diagnostic and falls through to the remote call, as in the source. -/
def ImportState (r : client.Client) (h : Conversions) (req : resource.ImportStateRequest)
    (resp : resource.ImportStateResponse) : resource.ImportStateResponse × List client.Call :=
  let parsed := splitProjectDomainID req.ID
  let teamID := parsed.1
  let projectID := parsed.2.1
  let domain := parsed.2.2.1
  let ok := parsed.2.2.2
  let resp : resource.ImportStateResponse :=
    if !ok then
      { resp with Diagnostics := (diag.AddError resp.Diagnostics
          "Error importing project domain"
          ("Invalid id \x27" ++ req.ID ++
            "\x27 specified. should be in format \"team_id/project_id/domain\" or \"project_id/domain\"")) }
    else resp
  let res := r.GetProjectDomain projectID domain teamID
  let out := res.1
  let err := res.2
  let calls := [Call.GetProjectDomain projectID domain teamID]
  match err with
  | some e =>
    ({ resp with Diagnostics := (diag.AddError resp.Diagnostics
        "Error reading project domain"
        ("Could not get domain " ++ domain ++ " for project " ++
          projectID ++ ", unexpected error: " ++ e.Error)) },
      calls)
  | none =>
    let result := h.convertResponseToProjectDomain out
    let set := resp.State.Set result
    ({ State := set.1, Diagnostics := diag.Append resp.Diagnostics set.2 }, calls)

end projectDomainResource

/-! ## The file data source -/

/-- A byte of file content. -/
abbrev Byte := Fin 256

namespace hex

/-- Go `encoding/hex`: the digit table. -/
def hextable : List Char := "0123456789abcdef".data

/-- Go `hex.EncodeToString`: two digits per byte, high nibble first. -/
def EncodeToString (src : List Byte) : String :=
  String.mk (src.flatMap fun v =>
    [hextable.getD (v.val >>> 4) '0', hextable.getD (v.val &&& 0x0f) '0'])

end hex

namespace sha1

/-- Go `sha1.Size`. -/
def Size : Nat := 20

/-- The result type `[Size]byte` of `sha1.Sum`. -/
abbrev Digest := { d : List Byte // d.length = Size }

end sha1

/-- Source: `FileData` in `data_source_file.go`; the Go map is an association list. -/
structure FileData where
  Path : TypesString
  ID : TypesString
  File : List (String × String)
deriving DecidableEq, Repr

namespace datasource

structure ReadRequest where
  Config : tfsdk.Config FileData

structure ReadResponse where
  State : tfsdk.State FileData
  Diagnostics : diag.Diagnostics

end datasource

namespace fileDataSource

/-- The fingerprint of a file content as the specification words it,
`"<byte-length>~<hex-digest>"`, with `Sum` standing for `sha1.Sum`; `Read` below builds its
value with `fmt.Sprintf`, and the two are compared below. -/
def fingerprint (Sum : List Byte → sha1.Digest) (content : List Byte) : String :=
  Nat.repr content.length ++ "~" ++ hex.EncodeToString (Sum content).val

/-- Source: `(*fileDataSource).Read`.  `ReadFile` stands for `os.ReadFile` and `Sum` for
`sha1.Sum`. -/
def Read (ReadFile : String → List Byte × Option GoError) (Sum : List Byte → sha1.Digest)
    (req : datasource.ReadRequest) (resp : datasource.ReadResponse) : datasource.ReadResponse :=
  let got := req.Config.Get
  let config := got.1
  let diags := got.2
  let resp : datasource.ReadResponse :=
    { resp with Diagnostics := diag.Append resp.Diagnostics diags }
  if diag.HasError resp.Diagnostics then
    resp
  else
    let rd := ReadFile config.Path.Value
    let content := rd.1
    let err := rd.2
    match err with
    | some e =>
      { resp with Diagnostics := (diag.AddError resp.Diagnostics
          "Error reading file"
          ("Could not read file " ++ config.Path.Value ++ ", unexpected error: " ++ e.Error)) }
    | none =>
      let rawSha := Sum content
      let sha := hex.EncodeToString rawSha.val
      let config : FileData :=
        { config with File := [(config.Path.Value, Nat.repr content.length ++ "~" ++ sha)] }
      let config : FileData := { config with ID := config.Path }
      let set := resp.State.Set config
      { State := set.1, Diagnostics := diag.Append resp.Diagnostics set.2 }

end fileDataSource

/-! ## Sample collaborators, used to evaluate the handlers on concrete inputs -/

namespace Sample

def str (v : String) : TypesString :=
  { Unknown := false, Null := false, Value := v }

def optStr (v : Option String) : TypesString :=
  match v with
  | some x => { Unknown := false, Null := false, Value := x }
  | none => { Unknown := false, Null := true, Value := "" }

def optInt (v : Option Int) : TypesInt64 :=
  match v with
  | some x => { Unknown := false, Null := false, Value := x }
  | none => { Unknown := false, Null := true, Value := 0 }

/-- The Go zero value of `ProjectDomain`. -/
def zeroDomain : ProjectDomain :=
  { ProjectID := str "", TeamID := str "", ID := str "", Domain := str "",
    Redirect := str "", RedirectStatusCode := { Unknown := false, Null := false, Value := 0 },
    GitBranch := str "" }

/-- A project domain whose key is `(teamID, projectID, domain)`. -/
def domainOf (teamID projectID domain : String) : ProjectDomain :=
  { zeroDomain with ProjectID := str projectID, TeamID := str teamID, ID := str domain,
                    Domain := str domain }

def conversions : Conversions :=
  { convertResponseToProjectDomain := fun r =>
      { ProjectID := str r.ProjectID, TeamID := str r.TeamID, ID := str r.Name,
        Domain := str r.Name, Redirect := optStr r.Redirect,
        RedirectStatusCode := optInt r.RedirectStatusCode, GitBranch := optStr r.GitBranch },
    toCreateRequest := fun p =>
      { Name := p.Domain.Value, GitBranch := none, Redirect := none,
        RedirectStatusCode := none } }

/-- A schema whose conversions never report a diagnostic. -/
def schema : tfsdk.Schema ProjectDomain :=
  { decode := fun raw => (raw.getD zeroDomain, []), encode := fun _ => [] }

def stateOf (raw : Option ProjectDomain) : tfsdk.State ProjectDomain :=
  { Raw := raw, Schema := schema }

def planOf (raw : Option ProjectDomain) : tfsdk.Plan ProjectDomain :=
  { Raw := raw, Schema := schema }

def notFoundError : GoError :=
  { Error := "not_found - The domain was not found", APIStatusCode := some 404 }

def serverError : GoError :=
  { Error := "internal_server_error - Something went wrong", APIStatusCode := some 500 }

/-- A client that answers every call about `(projectID, domain, teamID)` with the object of
that key, and reports the given error (if any) from each kind of call. -/
def clientWith (getProject createProjectDomain getProjectDomain deleteProjectDomain :
    Option GoError) : client.Client :=
  { GetProject := fun projectID _ _ => ({ ID := projectID, Name := "site" }, getProject),
    CreateProjectDomain := fun projectID teamID request =>
      ({ Name := request.Name, ProjectID := projectID, TeamID := teamID,
         Redirect := request.Redirect, RedirectStatusCode := request.RedirectStatusCode,
         GitBranch := request.GitBranch }, createProjectDomain),
    GetProjectDomain := fun projectID domain teamID =>
      ({ Name := domain, ProjectID := projectID, TeamID := teamID, Redirect := none,
         RedirectStatusCode := none, GitBranch := none }, getProjectDomain),
    DeleteProjectDomain := fun _ _ _ => deleteProjectDomain }

end Sample

namespace Sample

/-- A stand-in for `sha1.Sum`: twenty copies of the content length modulo 256. -/
def sum (content : List Byte) : sha1.Digest :=
  ⟨List.replicate 20 (Fin.ofNat content.length), by simp [sha1.Size]⟩

/-- A file system holding the two-byte file "index.html". -/
def readFile (path : String) : List Byte × Option GoError :=
  if path = "index.html" then ([104, 105], none)
  else ([], some { Error := "open " ++ path ++ ": no such file or directory",
                   APIStatusCode := none })

def zeroFile : FileData :=
  { Path := str "", ID := str "", File := [] }

def fileSchema : tfsdk.Schema FileData :=
  { decode := fun raw => (raw.getD zeroFile, []), encode := fun _ => [] }

def configOf (path : String) : tfsdk.Config FileData :=
  { Raw := some { zeroFile with Path := str path }, Schema := fileSchema }

end Sample

/-! ## Lemmas on `strings.Split` -/

namespace strings

theorem splitChars_ne_nil (sep : Char) (l : List Char) : splitChars sep l ≠ [] := by
  cases l with
  | nil => simp [splitChars]
  | cons c cs =>
    simp only [splitChars]
    split
    · simp
    · split <;> simp

theorem length_splitChars (sep : Char) (l : List Char) :
    (splitChars sep l).length = l.count sep + 1 := by
  induction l with
  | nil => simp [splitChars]
  | cons c cs ih =>
    simp only [splitChars]
    by_cases hc : c = sep
    · subst hc
      simp [ih]
    · have hne : (c == sep) = false := by simpa using hc
      rw [if_neg hc, List.count_cons, hne]
      cases hs : splitChars sep cs with
      | nil => exact absurd hs (splitChars_ne_nil sep cs)
      | cons seg rest =>
        rw [hs] at ih
        simpa using ih

theorem intercalate_splitChars (sep : Char) (l : List Char) :
    List.intercalate [sep] (splitChars sep l) = l := by
  induction l with
  | nil => simp [splitChars, List.intercalate]
  | cons c cs ih =>
    simp only [splitChars]
    by_cases hc : c = sep
    · subst hc
      rw [if_pos rfl]
      cases hs : splitChars c cs with
      | nil => exact absurd hs (splitChars_ne_nil c cs)
      | cons seg rest =>
        rw [hs] at ih
        simp only [List.intercalate] at ih ⊢
        simp only [List.intersperse, List.flatten] at ih ⊢
        simp [ih]
    · rw [if_neg hc]
      cases hs : splitChars sep cs with
      | nil => exact absurd hs (splitChars_ne_nil sep cs)
      | cons seg rest =>
        rw [hs] at ih
        cases rest with
        | nil =>
          simp only [List.intercalate, List.intersperse, List.flatten] at ih ⊢
          simp [← ih]
        | cons seg2 rest2 =>
          simp only [List.intercalate, List.intersperse, List.flatten] at ih ⊢
          simp [← ih]

theorem length_Split (s : String) (sep : Char) :
    (Split s sep).length = Count s sep + 1 := by
  simp [Split, Count, length_splitChars]

end strings

/-! ## `splitProjectDomainID`: accepted and rejected shapes -/

theorem splitProjectDomainID_of_rejected (id : String)
    (hok : (splitProjectDomainID id).2.2.2 = false) :
    splitProjectDomainID id = ("", "", "", false) := by
  unfold splitProjectDomainID at hok ⊢
  simp only [] at hok ⊢
  split
  · rename_i h2
    simp [h2] at hok
  · split
    · rename_i h2 h3
      simp [h2, h3] at hok
    · rfl

/-- C1: an id that splits on "/" into exactly three segments `[t, p, d]` parses to
`(t, p, d, true)`, and one that splits into exactly two segments `[p, d]` parses to
`("", p, d, true)`. -/
theorem splitProjectDomainID_parses (id t p d : String) :
    (strings.Split id '/' = [t, p, d] → splitProjectDomainID id = (t, p, d, true)) ∧
    (strings.Split id '/' = [p, d] → splitProjectDomainID id = ("", p, d, true)) := by
  constructor
  · intro h
    simp [splitProjectDomainID, h]
  · intro h
    simp [splitProjectDomainID, h]

theorem splitProjectDomainID_parses_witness :
    (strings.Split "teamA/proj1/example.com" '/' = ["teamA", "proj1", "example.com"] ∧
      splitProjectDomainID "teamA/proj1/example.com" = ("teamA", "proj1", "example.com", true)) ∧
    (strings.Split "proj1/example.com" '/' = ["proj1", "example.com"] ∧
      splitProjectDomainID "proj1/example.com" = ("", "proj1", "example.com", true)) :=
  ⟨⟨by decide,
    (splitProjectDomainID_parses "teamA/proj1/example.com" "teamA" "proj1" "example.com").1
      (by decide)⟩,
   ⟨by decide,
    (splitProjectDomainID_parses "proj1/example.com" "" "proj1" "example.com").2 (by decide)⟩⟩

/-- C2: `ok` is true exactly when the id contains one or two "/" characters, that is when it
has two or three segments; and whenever `ok` is false the three returned strings are
empty. -/
theorem splitProjectDomainID_ok_iff (id : String) :
    ((splitProjectDomainID id).2.2.2 = true ↔
      (strings.Count id '/' = 1 ∨ strings.Count id '/' = 2)) ∧
    ((splitProjectDomainID id).2.2.2 = true ↔
      ((strings.Split id '/').length = 2 ∨ (strings.Split id '/').length = 3)) ∧
    ((splitProjectDomainID id).2.2.2 = false →
      splitProjectDomainID id = ("", "", "", false)) := by
  have hlen := strings.length_Split id '/'
  refine ⟨?_, ?_, ?_⟩
  · unfold splitProjectDomainID
    simp only []
    split
    · simp; omega
    · split
      · simp; omega
      · simp; omega
  · unfold splitProjectDomainID
    simp only []
    split
    · simp; omega
    · split
      · simp; omega
      · simp; omega
  · exact splitProjectDomainID_of_rejected id

theorem splitProjectDomainID_ok_iff_witness :
    (splitProjectDomainID "a/b/c/d").2.2.2 = false ∧
    splitProjectDomainID "a/b/c/d" = ("", "", "", false) ∧
    splitProjectDomainID "example.com" = ("", "", "", false) :=
  ⟨by decide, (splitProjectDomainID_ok_iff "a/b/c/d").2.2 (by decide),
    (splitProjectDomainID_ok_iff "example.com").2.2 (by decide)⟩

/-- C10: on an accepted id nothing is lost: either the id has three segments and
`teamID ++ "/" ++ projectID ++ "/" ++ domain` is the id, or it has two segments, `teamID`
is empty and `projectID ++ "/" ++ domain` is the id. -/
theorem splitProjectDomainID_roundtrip (id teamID projectID domain : String)
    (h : splitProjectDomainID id = (teamID, projectID, domain, true)) :
    ((strings.Split id '/').length = 3 ∧
      teamID ++ "/" ++ projectID ++ "/" ++ domain = id) ∨
    ((strings.Split id '/').length = 2 ∧ teamID = "" ∧
      projectID ++ "/" ++ domain = id) := by
  have hcat := strings.intercalate_splitChars '/' id.data
  unfold splitProjectDomainID at h
  simp only [strings.Split] at h ⊢
  rcases hs : strings.splitChars '/' id.data with _ | ⟨a, _ | ⟨b, _ | ⟨c, _ | ⟨e, rest⟩⟩⟩⟩
  · exact absurd hs (strings.splitChars_ne_nil _ _)
  · rw [hs] at h
    simp at h
  · rw [hs] at h hcat
    right
    simp at h
    obtain ⟨h1, h2, h3⟩ := h
    subst h1 h2 h3
    refine ⟨by simp, rfl, ?_⟩
    apply String.ext
    simp [List.intercalate, List.intersperse] at hcat
    simp [hcat]
  · rw [hs] at h hcat
    left
    simp at h
    obtain ⟨h1, h2, h3⟩ := h
    subst h1 h2 h3
    refine ⟨by simp, ?_⟩
    apply String.ext
    simp [List.intercalate, List.intersperse] at hcat
    simp [hcat]
  · rw [hs] at h
    simp at h

theorem splitProjectDomainID_roundtrip_witness :
    splitProjectDomainID "teamA/proj1/example.com" = ("teamA", "proj1", "example.com", true) ∧
    (((strings.Split "teamA/proj1/example.com" '/').length = 3 ∧
      "teamA" ++ "/" ++ "proj1" ++ "/" ++ "example.com" = "teamA/proj1/example.com") ∨
    ((strings.Split "teamA/proj1/example.com" '/').length = 2 ∧ "teamA" = "" ∧
      "proj1" ++ "/" ++ "example.com" = "teamA/proj1/example.com")) :=
  ⟨by decide,
    splitProjectDomainID_roundtrip "teamA/proj1/example.com" "teamA" "proj1" "example.com"
      (by decide)⟩

/-! ## Lemmas on diagnostics -/

namespace diag

theorem HasError_list_append (a b : Diagnostics) :
    HasError (a ++ b) = (HasError a || HasError b) := by
  simp [HasError, List.any_append]

theorem HasError_of_mem {ds : Diagnostics} {d : Diagnostic} (hd : d ∈ ds)
    (he : d.Severity = Severity.Error) : HasError ds = true := by
  simp only [HasError, List.any_eq_true]
  exact ⟨d, hd, by simpa using he⟩

theorem HasError_Append (ds new : Diagnostics) :
    HasError (Append ds new) = (HasError ds || HasError new) := by
  induction new generalizing ds with
  | nil => simp [Append, HasError]
  | cons d rest ih =>
    have step : Append ds (d :: rest) = Append (if d ∈ ds then ds else ds ++ [d]) rest := by
      simp [Append]
    rw [step, ih]
    by_cases hd : d ∈ ds
    · rw [if_pos hd]
      by_cases he : d.Severity = Severity.Error
      · have := HasError_of_mem hd he
        simp [this]
      · simp [HasError, he]
    · rw [if_neg hd, HasError_list_append]
      simp [HasError, Bool.or_assoc]

theorem HasError_AddError (ds : Diagnostics) (summary detail : String) :
    HasError (AddError ds summary detail) = true := by
  rw [AddError, HasError_Append]
  simp [HasError, NewErrorDiagnostic]

theorem mem_Append_of_mem {ds : Diagnostics} (new : Diagnostics) {d : Diagnostic}
    (hd : d ∈ ds) : d ∈ Append ds new := by
  induction new generalizing ds with
  | nil => simpa [Append] using hd
  | cons x rest ih =>
    have step : Append ds (x :: rest) = Append (if x ∈ ds then ds else ds ++ [x]) rest := by
      simp [Append]
    rw [step]
    apply ih
    split
    · exact hd
    · exact List.mem_append_left _ hd

theorem mem_AddError (ds : Diagnostics) (summary detail : String) :
    NewErrorDiagnostic summary detail ∈ AddError ds summary detail := by
  simp only [AddError, Append, List.foldl]
  split
  · assumption
  · simp

end diag

theorem Set_diags {α : Type} (s : tfsdk.State α) (v : α) :
    (s.Set v).2 = s.Schema.encode v := by
  unfold tfsdk.State.Set
  simp only []
  split <;> rfl

theorem Set_state_of_ok {α : Type} (s : tfsdk.State α) (v : α)
    (hok : diag.HasError (s.Schema.encode v) = false) :
    (s.Set v).1 = { s with Raw := some v } := by
  simp [tfsdk.State.Set, hok]

/-! ## `ImportState` on a malformed id -/

/-- On every rejected id and with every client, `ImportState` records the import error and
still makes the `GetProjectDomain` call, with three empty strings. -/
theorem ImportState_of_rejected (r : client.Client) (h : Conversions) (id : String)
    (resp : resource.ImportStateResponse)
    (hok : (splitProjectDomainID id).2.2.2 = false) :
    (projectDomainResource.ImportState r h { ID := id } resp).2
      = [client.Call.GetProjectDomain "" "" ""] ∧
    diag.NewErrorDiagnostic "Error importing project domain"
        ("Invalid id \x27" ++ id ++
          "\x27 specified. should be in format \"team_id/project_id/domain\" or \"project_id/domain\"")
      ∈ (projectDomainResource.ImportState r h { ID := id } resp).1.Diagnostics := by
  have hid := splitProjectDomainID_of_rejected id hok
  unfold projectDomainResource.ImportState
  simp only [hid]
  cases (r.GetProjectDomain "" "" "").2 with
  | none =>
    refine ⟨rfl, ?_⟩
    exact diag.mem_Append_of_mem _ (diag.mem_AddError _ _ _)
  | some e =>
    refine ⟨rfl, ?_⟩
    exact diag.mem_Append_of_mem _ (diag.mem_AddError _ _ _)

/-- C3: what `ImportState` does on the malformed id "a/b/c/d" with a client whose calls
all succeed: the id is rejected and the "Error importing project domain" diagnostic is
added, but the handler goes on to call `GetProjectDomain` with three empty strings and
writes the object that call returns to the response state. -/
theorem ImportState_malformed_id_still_reads :
    (splitProjectDomainID "a/b/c/d").2.2.2 = false ∧
    diag.HasError (projectDomainResource.ImportState (Sample.clientWith none none none none)
      Sample.conversions { ID := "a/b/c/d" }
      { State := Sample.stateOf none, Diagnostics := [] }).1.Diagnostics = true ∧
    (projectDomainResource.ImportState (Sample.clientWith none none none none)
      Sample.conversions { ID := "a/b/c/d" }
      { State := Sample.stateOf none, Diagnostics := [] }).2
      = [client.Call.GetProjectDomain "" "" ""] ∧
    (projectDomainResource.ImportState (Sample.clientWith none none none none)
      Sample.conversions { ID := "a/b/c/d" }
      { State := Sample.stateOf none, Diagnostics := [] }).1.State.Raw
      = some (Sample.conversions.convertResponseToProjectDomain
          ((Sample.clientWith none none none none).GetProjectDomain "" "" "").1) := by
  refine ⟨by decide, by decide, by decide, by decide⟩

/-! ## `Create` -/

/-- C4: when the `GetProject` call for the plan's `(project_id, team_id)` returns a NotFound
error, `Create` ends with an error diagnostic, makes no `CreateProjectDomain` call and
leaves the response state as it was handed in. -/
theorem Create_project_not_found (r : client.Client) (h : Conversions)
    (req : resource.CreateRequest) (resp : resource.CreateResponse)
    (hnf : client.NotFound (r.GetProject req.Plan.Get.1.ProjectID.Value
      req.Plan.Get.1.TeamID.Value false).2 = true) :
    diag.HasError (projectDomainResource.Create r h req resp).1.Diagnostics = true ∧
    (∀ projectID teamID request,
      client.Call.CreateProjectDomain projectID teamID request ∉
        (projectDomainResource.Create r h req resp).2) ∧
    (projectDomainResource.Create r h req resp).1.State = resp.State := by
  unfold projectDomainResource.Create
  simp only []
  split
  · rename_i herr
    exact ⟨herr, by simp, rfl⟩
  · exact ⟨diag.HasError_AddError _ _ _, by simp, rfl⟩

theorem Create_project_not_found_witness :
    client.NotFound ((Sample.clientWith (some Sample.notFoundError) none none none).GetProject
      "prj_1" "team_1" false).2 = true ∧
    diag.HasError (projectDomainResource.Create
      (Sample.clientWith (some Sample.notFoundError) none none none) Sample.conversions
      { Plan := Sample.planOf (some (Sample.domainOf "team_1" "prj_1" "example.com")) }
      { State := Sample.stateOf none, Diagnostics := [] }).1.Diagnostics = true ∧
    (projectDomainResource.Create
      (Sample.clientWith (some Sample.notFoundError) none none none) Sample.conversions
      { Plan := Sample.planOf (some (Sample.domainOf "team_1" "prj_1" "example.com")) }
      { State := Sample.stateOf none, Diagnostics := [] }).2
      = [client.Call.GetProject "prj_1" "team_1" false] ∧
    (projectDomainResource.Create
      (Sample.clientWith (some Sample.notFoundError) none none none) Sample.conversions
      { Plan := Sample.planOf (some (Sample.domainOf "team_1" "prj_1" "example.com")) }
      { State := Sample.stateOf none, Diagnostics := [] }).1.State.Raw = none :=
  ⟨by decide,
   (Create_project_not_found (Sample.clientWith (some Sample.notFoundError) none none none)
      Sample.conversions
      { Plan := Sample.planOf (some (Sample.domainOf "team_1" "prj_1" "example.com")) }
      { State := Sample.stateOf none, Diagnostics := [] } (by decide)).1,
   by decide, by decide⟩

/-- With every client whose `GetProject` returns an error that is not NotFound and whose
`CreateProjectDomain` succeeds, `Create` reports no error and writes the created object. -/
theorem Create_of_GetProject_other_error (r : client.Client) (h : Conversions)
    (req : resource.CreateRequest) (resp : resource.CreateResponse) (e : GoError)
    (h0 : diag.HasError resp.Diagnostics = false)
    (hdec : diag.HasError req.Plan.Get.2 = false)
    (hget : (r.GetProject req.Plan.Get.1.ProjectID.Value
      req.Plan.Get.1.TeamID.Value false).2 = some e)
    (hnf : client.NotFound (some e) = false)
    (hcreate : (r.CreateProjectDomain req.Plan.Get.1.ProjectID.Value
      req.Plan.Get.1.TeamID.Value (h.toCreateRequest req.Plan.Get.1)).2 = none)
    (henc : ∀ v, diag.HasError (resp.State.Schema.encode v) = false) :
    diag.HasError (projectDomainResource.Create r h req resp).1.Diagnostics = false ∧
    (projectDomainResource.Create r h req resp).1.State.Raw
      = some (h.convertResponseToProjectDomain
          (r.CreateProjectDomain req.Plan.Get.1.ProjectID.Value
            req.Plan.Get.1.TeamID.Value (h.toCreateRequest req.Plan.Get.1)).1) := by
  have hE : diag.HasError (diag.Append resp.Diagnostics req.Plan.Get.2) = false := by
    rw [diag.HasError_Append, h0, hdec]; rfl
  unfold projectDomainResource.Create
  simp only [hE, hget, hnf, hcreate]
  simp [diag.HasError_Append, Set_diags, Set_state_of_ok, henc, hE]

/-- C5: what `Create` does when the `GetProject` existence check fails with an error that
is not NotFound (status 500) and `CreateProjectDomain` then succeeds: the error of the
check is dropped, both calls are made, no error diagnostic is added and the created object
is written to the response state. -/
theorem Create_drops_GetProject_error :
    client.NotFound (some Sample.serverError) = false ∧
    ((Sample.clientWith (some Sample.serverError) none none none).GetProject
      "prj_1" "team_1" false).2 = some Sample.serverError ∧
    diag.HasError (projectDomainResource.Create
      (Sample.clientWith (some Sample.serverError) none none none) Sample.conversions
      { Plan := Sample.planOf (some (Sample.domainOf "team_1" "prj_1" "example.com")) }
      { State := Sample.stateOf none, Diagnostics := [] }).1.Diagnostics = false ∧
    (projectDomainResource.Create
      (Sample.clientWith (some Sample.serverError) none none none) Sample.conversions
      { Plan := Sample.planOf (some (Sample.domainOf "team_1" "prj_1" "example.com")) }
      { State := Sample.stateOf none, Diagnostics := [] }).2
      = [client.Call.GetProject "prj_1" "team_1" false,
         client.Call.CreateProjectDomain "prj_1" "team_1"
           (Sample.conversions.toCreateRequest (Sample.domainOf "team_1" "prj_1" "example.com"))] ∧
    (projectDomainResource.Create
      (Sample.clientWith (some Sample.serverError) none none none) Sample.conversions
      { Plan := Sample.planOf (some (Sample.domainOf "team_1" "prj_1" "example.com")) }
      { State := Sample.stateOf none, Diagnostics := [] }).1.State.Raw
      = some (Sample.conversions.convertResponseToProjectDomain
          ((Sample.clientWith (some Sample.serverError) none none none).CreateProjectDomain
            "prj_1" "team_1"
            (Sample.conversions.toCreateRequest
              (Sample.domainOf "team_1" "prj_1" "example.com"))).1) := by
  refine ⟨by decide, by decide, by decide, by decide, by decide⟩

/-! ## `Read` and `Delete` -/

namespace projectDomainResource

theorem Read_of_decode_error (r : client.Client) (h : Conversions)
    (req : resource.ReadRequest) (resp : resource.ReadResponse)
    (hE : diag.HasError (diag.Append resp.Diagnostics req.State.Get.2) = true) :
    Read r h req resp =
      ({ resp with Diagnostics := diag.Append resp.Diagnostics req.State.Get.2 }, []) := by
  simp [Read, hE]

theorem Read_of_not_found (r : client.Client) (h : Conversions)
    (req : resource.ReadRequest) (resp : resource.ReadResponse)
    (hE : diag.HasError (diag.Append resp.Diagnostics req.State.Get.2) = false)
    (hnf : client.NotFound (r.GetProjectDomain req.State.Get.1.ProjectID.Value
      req.State.Get.1.Domain.Value req.State.Get.1.TeamID.Value).2 = true) :
    Read r h req resp =
      ({ State := resp.State.RemoveResource,
         Diagnostics := diag.Append resp.Diagnostics req.State.Get.2 },
       [client.Call.GetProjectDomain req.State.Get.1.ProjectID.Value
          req.State.Get.1.Domain.Value req.State.Get.1.TeamID.Value]) := by
  simp [Read, hE, hnf]

theorem Read_of_other_error (r : client.Client) (h : Conversions)
    (req : resource.ReadRequest) (resp : resource.ReadResponse) (e : GoError)
    (hE : diag.HasError (diag.Append resp.Diagnostics req.State.Get.2) = false)
    (he : (r.GetProjectDomain req.State.Get.1.ProjectID.Value
      req.State.Get.1.Domain.Value req.State.Get.1.TeamID.Value).2 = some e)
    (hnf : client.NotFound (some e) = false) :
    Read r h req resp =
      ({ State := resp.State,
         Diagnostics := diag.AddError (diag.Append resp.Diagnostics req.State.Get.2)
           "Error reading project domain"
           ("Could not get domain " ++ req.State.Get.1.Domain.Value ++ " for project " ++
              req.State.Get.1.ProjectID.Value ++ ", unexpected error: " ++ e.Error) },
       [client.Call.GetProjectDomain req.State.Get.1.ProjectID.Value
          req.State.Get.1.Domain.Value req.State.Get.1.TeamID.Value]) := by
  simp [Read, hE, he, hnf]

theorem Read_of_success (r : client.Client) (h : Conversions)
    (req : resource.ReadRequest) (resp : resource.ReadResponse)
    (hE : diag.HasError (diag.Append resp.Diagnostics req.State.Get.2) = false)
    (he : (r.GetProjectDomain req.State.Get.1.ProjectID.Value
      req.State.Get.1.Domain.Value req.State.Get.1.TeamID.Value).2 = none) :
    Read r h req resp =
      ({ State := (resp.State.Set (h.convertResponseToProjectDomain
            (r.GetProjectDomain req.State.Get.1.ProjectID.Value
              req.State.Get.1.Domain.Value req.State.Get.1.TeamID.Value).1)).1,
         Diagnostics := diag.Append (diag.Append resp.Diagnostics req.State.Get.2)
           (resp.State.Set (h.convertResponseToProjectDomain
            (r.GetProjectDomain req.State.Get.1.ProjectID.Value
              req.State.Get.1.Domain.Value req.State.Get.1.TeamID.Value).1)).2 },
       [client.Call.GetProjectDomain req.State.Get.1.ProjectID.Value
          req.State.Get.1.Domain.Value req.State.Get.1.TeamID.Value]) := by
  simp [Read, hE, he, client.NotFound]

end projectDomainResource

/-- C6: whenever the prior state decodes, `Read` calls `GetProjectDomain` with the state's
`(project_id, domain, team_id)`, and a NotFound answer to that call makes `Read` remove the
resource from the state without an error diagnostic; conversely every `GetProjectDomain`
call `Read` makes that is answered NotFound ends that way; and when the prior state decodes
and the result encodes without error, `Read` ends with an error diagnostic exactly when
`GetProjectDomain` returned an error that is not NotFound, and then the state is the one
handed in. -/
theorem Read_not_found_is_drift (r : client.Client) (h : Conversions)
    (req : resource.ReadRequest) (resp : resource.ReadResponse) :
    (diag.HasError resp.Diagnostics = false →
      diag.HasError req.State.Get.2 = false →
      (projectDomainResource.Read r h req resp).2 =
        [client.Call.GetProjectDomain req.State.Get.1.ProjectID.Value
          req.State.Get.1.Domain.Value req.State.Get.1.TeamID.Value]) ∧
    (diag.HasError resp.Diagnostics = false →
      diag.HasError req.State.Get.2 = false →
      client.NotFound (r.GetProjectDomain req.State.Get.1.ProjectID.Value
        req.State.Get.1.Domain.Value req.State.Get.1.TeamID.Value).2 = true →
      (projectDomainResource.Read r h req resp).1.State = resp.State.RemoveResource ∧
      (projectDomainResource.Read r h req resp).1.State.Raw = none ∧
      diag.HasError (projectDomainResource.Read r h req resp).1.Diagnostics = false) ∧
    (∀ projectID domain teamID,
      client.Call.GetProjectDomain projectID domain teamID ∈
        (projectDomainResource.Read r h req resp).2 →
      client.NotFound (r.GetProjectDomain projectID domain teamID).2 = true →
      (projectDomainResource.Read r h req resp).1.State.Raw = none ∧
      diag.HasError (projectDomainResource.Read r h req resp).1.Diagnostics = false) ∧
    (diag.HasError resp.Diagnostics = false →
      diag.HasError req.State.Get.2 = false →
      diag.HasError (resp.State.Schema.encode (h.convertResponseToProjectDomain
        (r.GetProjectDomain req.State.Get.1.ProjectID.Value req.State.Get.1.Domain.Value
          req.State.Get.1.TeamID.Value).1)) = false →
      (diag.HasError (projectDomainResource.Read r h req resp).1.Diagnostics = true ↔
        ∃ e, (r.GetProjectDomain req.State.Get.1.ProjectID.Value
            req.State.Get.1.Domain.Value req.State.Get.1.TeamID.Value).2 = some e ∧
          client.NotFound (some e) = false) ∧
      (∀ e, (r.GetProjectDomain req.State.Get.1.ProjectID.Value
            req.State.Get.1.Domain.Value req.State.Get.1.TeamID.Value).2 = some e →
          client.NotFound (some e) = false →
          (projectDomainResource.Read r h req resp).1.State = resp.State)) := by
  refine ⟨?_, ?_, ?_⟩
  · intro h0 hdec
    have hE : diag.HasError (diag.Append resp.Diagnostics req.State.Get.2) = false := by
      rw [diag.HasError_Append, h0, hdec]; rfl
    cases he : (r.GetProjectDomain req.State.Get.1.ProjectID.Value
        req.State.Get.1.Domain.Value req.State.Get.1.TeamID.Value).2 with
    | none => rw [projectDomainResource.Read_of_success r h req resp hE he]
    | some e =>
      cases hN : client.NotFound (some e) with
      | true =>
        rw [projectDomainResource.Read_of_not_found r h req resp hE (by rw [he]; exact hN)]
      | false => rw [projectDomainResource.Read_of_other_error r h req resp e hE he hN]
  · intro h0 hdec hnf
    have hE : diag.HasError (diag.Append resp.Diagnostics req.State.Get.2) = false := by
      rw [diag.HasError_Append, h0, hdec]; rfl
    rw [projectDomainResource.Read_of_not_found r h req resp hE hnf]
    exact ⟨rfl, rfl, hE⟩
  constructor
  · intro projectID domain teamID hcall hnf
    cases hE : diag.HasError (diag.Append resp.Diagnostics req.State.Get.2) with
    | true =>
      rw [projectDomainResource.Read_of_decode_error r h req resp hE] at hcall
      simp at hcall
    | false =>
      have hargs : client.Call.GetProjectDomain projectID domain teamID =
          client.Call.GetProjectDomain req.State.Get.1.ProjectID.Value
            req.State.Get.1.Domain.Value req.State.Get.1.TeamID.Value := by
        cases hN : client.NotFound (r.GetProjectDomain req.State.Get.1.ProjectID.Value
            req.State.Get.1.Domain.Value req.State.Get.1.TeamID.Value).2 with
        | true =>
          rw [projectDomainResource.Read_of_not_found r h req resp hE hN] at hcall
          simpa using hcall
        | false =>
          cases he : (r.GetProjectDomain req.State.Get.1.ProjectID.Value
              req.State.Get.1.Domain.Value req.State.Get.1.TeamID.Value).2 with
          | none =>
            rw [projectDomainResource.Read_of_success r h req resp hE he] at hcall
            simpa using hcall
          | some e =>
            rw [he] at hN
            rw [projectDomainResource.Read_of_other_error r h req resp e hE he hN] at hcall
            simpa using hcall
      injection hargs with h1 h2 h3
      subst h1 h2 h3
      rw [projectDomainResource.Read_of_not_found r h req resp hE hnf]
      exact ⟨rfl, hE⟩
  · intro h0 hdec henc
    have hE : diag.HasError (diag.Append resp.Diagnostics req.State.Get.2) = false := by
      rw [diag.HasError_Append, h0, hdec]; rfl
    cases he : (r.GetProjectDomain req.State.Get.1.ProjectID.Value
        req.State.Get.1.Domain.Value req.State.Get.1.TeamID.Value).2 with
    | none =>
      rw [projectDomainResource.Read_of_success r h req resp hE he]
      refine ⟨?_, ?_⟩
      · simp only [diag.HasError_Append, Set_diags, hE, henc]
        simp
      · intro e hcontra
        cases hcontra
    | some e =>
      cases hN : client.NotFound (some e) with
      | true =>
        rw [projectDomainResource.Read_of_not_found r h req resp hE (by rw [he]; exact hN)]
        refine ⟨?_, ?_⟩
        · simp only [hE]
          constructor
          · intro hc; cases hc
          · rintro ⟨e2, he2, hn2⟩
            cases he2
            rw [hN] at hn2
            cases hn2
        · intro e2 he2 hn2
          cases he2
          rw [hN] at hn2
          cases hn2
      | false =>
        rw [projectDomainResource.Read_of_other_error r h req resp e hE he hN]
        refine ⟨?_, ?_⟩
        · simp only [diag.HasError_AddError, true_iff]
          exact ⟨e, rfl, hN⟩
        · intro _ _ _
          rfl

theorem Read_not_found_is_drift_witness :
    ((projectDomainResource.Read (Sample.clientWith none none (some Sample.notFoundError) none)
        Sample.conversions
        { State := Sample.stateOf (some (Sample.domainOf "team_1" "prj_1" "example.com")) }
        { State := Sample.stateOf (some (Sample.domainOf "team_1" "prj_1" "example.com")),
          Diagnostics := [] }).1.State
        = (Sample.stateOf (some (Sample.domainOf "team_1" "prj_1" "example.com"))).RemoveResource ∧
      (projectDomainResource.Read (Sample.clientWith none none (some Sample.notFoundError) none)
        Sample.conversions
        { State := Sample.stateOf (some (Sample.domainOf "team_1" "prj_1" "example.com")) }
        { State := Sample.stateOf (some (Sample.domainOf "team_1" "prj_1" "example.com")),
          Diagnostics := [] }).1.State.Raw = none ∧
      diag.HasError (projectDomainResource.Read
        (Sample.clientWith none none (some Sample.notFoundError) none) Sample.conversions
        { State := Sample.stateOf (some (Sample.domainOf "team_1" "prj_1" "example.com")) }
        { State := Sample.stateOf (some (Sample.domainOf "team_1" "prj_1" "example.com")),
          Diagnostics := [] }).1.Diagnostics = false) ∧
    (projectDomainResource.Read (Sample.clientWith none none (some Sample.notFoundError) none)
        Sample.conversions
        { State := Sample.stateOf (some (Sample.domainOf "team_1" "prj_1" "example.com")) }
        { State := Sample.stateOf (some (Sample.domainOf "team_1" "prj_1" "example.com")),
          Diagnostics := [] }).2
      = [client.Call.GetProjectDomain "prj_1" "example.com" "team_1"] ∧
    (diag.HasError (projectDomainResource.Read
        (Sample.clientWith none none (some Sample.serverError) none) Sample.conversions
        { State := Sample.stateOf (some (Sample.domainOf "team_1" "prj_1" "example.com")) }
        { State := Sample.stateOf (some (Sample.domainOf "team_1" "prj_1" "example.com")),
          Diagnostics := [] }).1.Diagnostics = true ↔
      ∃ e, ((Sample.clientWith none none (some Sample.serverError) none).GetProjectDomain
          "prj_1" "example.com" "team_1").2 = some e ∧ client.NotFound (some e) = false) :=
  ⟨(Read_not_found_is_drift (Sample.clientWith none none (some Sample.notFoundError) none)
      Sample.conversions
      { State := Sample.stateOf (some (Sample.domainOf "team_1" "prj_1" "example.com")) }
      { State := Sample.stateOf (some (Sample.domainOf "team_1" "prj_1" "example.com")),
        Diagnostics := [] }).2.1 (by decide) (by decide) (by decide),
   (Read_not_found_is_drift (Sample.clientWith none none (some Sample.notFoundError) none)
      Sample.conversions
      { State := Sample.stateOf (some (Sample.domainOf "team_1" "prj_1" "example.com")) }
      { State := Sample.stateOf (some (Sample.domainOf "team_1" "prj_1" "example.com")),
        Diagnostics := [] }).1 (by decide) (by decide),
   ((Read_not_found_is_drift (Sample.clientWith none none (some Sample.serverError) none)
      Sample.conversions
      { State := Sample.stateOf (some (Sample.domainOf "team_1" "prj_1" "example.com")) }
      { State := Sample.stateOf (some (Sample.domainOf "team_1" "prj_1" "example.com")),
        Diagnostics := [] }).2.2.2 (by decide) (by decide) (by decide)).1⟩

namespace projectDomainResource

theorem Delete_of_decode_error (r : client.Client)
    (req : resource.DeleteRequest) (resp : resource.DeleteResponse)
    (hE : diag.HasError (diag.Append resp.Diagnostics req.State.Get.2) = true) :
    Delete r req resp =
      ({ resp with Diagnostics := diag.Append resp.Diagnostics req.State.Get.2 }, []) := by
  simp [Delete, hE]

theorem Delete_of_not_found (r : client.Client)
    (req : resource.DeleteRequest) (resp : resource.DeleteResponse)
    (hE : diag.HasError (diag.Append resp.Diagnostics req.State.Get.2) = false)
    (hnf : client.NotFound (r.DeleteProjectDomain req.State.Get.1.ProjectID.Value
      req.State.Get.1.Domain.Value req.State.Get.1.TeamID.Value) = true) :
    Delete r req resp =
      ({ State := resp.State.RemoveResource,
         Diagnostics := diag.Append resp.Diagnostics req.State.Get.2 },
       [client.Call.DeleteProjectDomain req.State.Get.1.ProjectID.Value
          req.State.Get.1.Domain.Value req.State.Get.1.TeamID.Value]) := by
  simp [Delete, hE, hnf]

theorem Delete_of_other_error (r : client.Client)
    (req : resource.DeleteRequest) (resp : resource.DeleteResponse) (e : GoError)
    (hE : diag.HasError (diag.Append resp.Diagnostics req.State.Get.2) = false)
    (he : r.DeleteProjectDomain req.State.Get.1.ProjectID.Value
      req.State.Get.1.Domain.Value req.State.Get.1.TeamID.Value = some e)
    (hnf : client.NotFound (some e) = false) :
    Delete r req resp =
      ({ State := resp.State,
         Diagnostics := diag.AddError (diag.Append resp.Diagnostics req.State.Get.2)
           "Error deleting project"
           ("Could not delete domain " ++ req.State.Get.1.Domain.Value ++ " for project " ++
              req.State.Get.1.ProjectID.Value ++ ", unexpected error: " ++ e.Error) },
       [client.Call.DeleteProjectDomain req.State.Get.1.ProjectID.Value
          req.State.Get.1.Domain.Value req.State.Get.1.TeamID.Value]) := by
  simp [Delete, hE, he, hnf]

theorem Delete_of_success (r : client.Client)
    (req : resource.DeleteRequest) (resp : resource.DeleteResponse)
    (hE : diag.HasError (diag.Append resp.Diagnostics req.State.Get.2) = false)
    (he : r.DeleteProjectDomain req.State.Get.1.ProjectID.Value
      req.State.Get.1.Domain.Value req.State.Get.1.TeamID.Value = none) :
    Delete r req resp =
      ({ State := resp.State,
         Diagnostics := diag.Append resp.Diagnostics req.State.Get.2 },
       [client.Call.DeleteProjectDomain req.State.Get.1.ProjectID.Value
          req.State.Get.1.Domain.Value req.State.Get.1.TeamID.Value]) := by
  simp [Delete, hE, he, client.NotFound]

end projectDomainResource

/-- C7: whenever the prior state decodes, `Delete` calls `DeleteProjectDomain` with the
state's `(project_id, domain, team_id)`, and a NotFound answer to that call makes `Delete`
end without an error diagnostic and with the resource removed from the state; conversely
every `DeleteProjectDomain` call `Delete` makes that is answered NotFound ends that way; and
when the prior state decodes without error, `Delete` ends with an error diagnostic exactly
when `DeleteProjectDomain` returned an error that is not NotFound. -/
theorem Delete_not_found_is_success (r : client.Client)
    (req : resource.DeleteRequest) (resp : resource.DeleteResponse) :
    (diag.HasError resp.Diagnostics = false →
      diag.HasError req.State.Get.2 = false →
      (projectDomainResource.Delete r req resp).2 =
        [client.Call.DeleteProjectDomain req.State.Get.1.ProjectID.Value
          req.State.Get.1.Domain.Value req.State.Get.1.TeamID.Value]) ∧
    (diag.HasError resp.Diagnostics = false →
      diag.HasError req.State.Get.2 = false →
      client.NotFound (r.DeleteProjectDomain req.State.Get.1.ProjectID.Value
        req.State.Get.1.Domain.Value req.State.Get.1.TeamID.Value) = true →
      diag.HasError (projectDomainResource.Delete r req resp).1.Diagnostics = false ∧
      (projectDomainResource.Delete r req resp).1.State = resp.State.RemoveResource ∧
      (projectDomainResource.Delete r req resp).1.State.Raw = none) ∧
    (∀ projectID domain teamID,
      client.Call.DeleteProjectDomain projectID domain teamID ∈
        (projectDomainResource.Delete r req resp).2 →
      client.NotFound (r.DeleteProjectDomain projectID domain teamID) = true →
      diag.HasError (projectDomainResource.Delete r req resp).1.Diagnostics = false ∧
      (projectDomainResource.Delete r req resp).1.State.Raw = none) ∧
    (diag.HasError resp.Diagnostics = false →
      diag.HasError req.State.Get.2 = false →
      (diag.HasError (projectDomainResource.Delete r req resp).1.Diagnostics = true ↔
        ∃ e, r.DeleteProjectDomain req.State.Get.1.ProjectID.Value
            req.State.Get.1.Domain.Value req.State.Get.1.TeamID.Value = some e ∧
          client.NotFound (some e) = false)) := by
  refine ⟨?_, ?_, ?_⟩
  · intro h0 hdec
    have hE : diag.HasError (diag.Append resp.Diagnostics req.State.Get.2) = false := by
      rw [diag.HasError_Append, h0, hdec]; rfl
    cases he : r.DeleteProjectDomain req.State.Get.1.ProjectID.Value
        req.State.Get.1.Domain.Value req.State.Get.1.TeamID.Value with
    | none => rw [projectDomainResource.Delete_of_success r req resp hE he]
    | some e =>
      cases hN : client.NotFound (some e) with
      | true =>
        rw [projectDomainResource.Delete_of_not_found r req resp hE (by rw [he]; exact hN)]
      | false => rw [projectDomainResource.Delete_of_other_error r req resp e hE he hN]
  · intro h0 hdec hnf
    have hE : diag.HasError (diag.Append resp.Diagnostics req.State.Get.2) = false := by
      rw [diag.HasError_Append, h0, hdec]; rfl
    rw [projectDomainResource.Delete_of_not_found r req resp hE hnf]
    exact ⟨hE, rfl, rfl⟩
  constructor
  · intro projectID domain teamID hcall hnf
    cases hE : diag.HasError (diag.Append resp.Diagnostics req.State.Get.2) with
    | true =>
      rw [projectDomainResource.Delete_of_decode_error r req resp hE] at hcall
      simp at hcall
    | false =>
      have hargs : client.Call.DeleteProjectDomain projectID domain teamID =
          client.Call.DeleteProjectDomain req.State.Get.1.ProjectID.Value
            req.State.Get.1.Domain.Value req.State.Get.1.TeamID.Value := by
        cases hN : client.NotFound (r.DeleteProjectDomain req.State.Get.1.ProjectID.Value
            req.State.Get.1.Domain.Value req.State.Get.1.TeamID.Value) with
        | true =>
          rw [projectDomainResource.Delete_of_not_found r req resp hE hN] at hcall
          simpa using hcall
        | false =>
          cases he : r.DeleteProjectDomain req.State.Get.1.ProjectID.Value
              req.State.Get.1.Domain.Value req.State.Get.1.TeamID.Value with
          | none =>
            rw [projectDomainResource.Delete_of_success r req resp hE he] at hcall
            simpa using hcall
          | some e =>
            rw [he] at hN
            rw [projectDomainResource.Delete_of_other_error r req resp e hE he hN] at hcall
            simpa using hcall
      injection hargs with h1 h2 h3
      subst h1 h2 h3
      rw [projectDomainResource.Delete_of_not_found r req resp hE hnf]
      exact ⟨hE, rfl⟩
  · intro h0 hdec
    have hE : diag.HasError (diag.Append resp.Diagnostics req.State.Get.2) = false := by
      rw [diag.HasError_Append, h0, hdec]; rfl
    cases he : r.DeleteProjectDomain req.State.Get.1.ProjectID.Value
        req.State.Get.1.Domain.Value req.State.Get.1.TeamID.Value with
    | none =>
      rw [projectDomainResource.Delete_of_success r req resp hE he]
      simp [hE]
    | some e =>
      cases hN : client.NotFound (some e) with
      | true =>
        rw [projectDomainResource.Delete_of_not_found r req resp hE (by rw [he]; exact hN)]
        simp only [hE]
        constructor
        · intro hc; cases hc
        · rintro ⟨e2, he2, hn2⟩
          cases he2
          rw [hN] at hn2
          cases hn2
      | false =>
        rw [projectDomainResource.Delete_of_other_error r req resp e hE he hN]
        simp only [diag.HasError_AddError, true_iff]
        exact ⟨e, rfl, hN⟩

theorem Delete_not_found_is_success_witness :
    (diag.HasError (projectDomainResource.Delete
        (Sample.clientWith none none none (some Sample.notFoundError))
        { State := Sample.stateOf (some (Sample.domainOf "team_1" "prj_1" "example.com")) }
        { State := Sample.stateOf (some (Sample.domainOf "team_1" "prj_1" "example.com")),
          Diagnostics := [] }).1.Diagnostics = false ∧
      (projectDomainResource.Delete
        (Sample.clientWith none none none (some Sample.notFoundError))
        { State := Sample.stateOf (some (Sample.domainOf "team_1" "prj_1" "example.com")) }
        { State := Sample.stateOf (some (Sample.domainOf "team_1" "prj_1" "example.com")),
          Diagnostics := [] }).1.State
        = (Sample.stateOf (some (Sample.domainOf "team_1" "prj_1" "example.com"))).RemoveResource ∧
      (projectDomainResource.Delete
        (Sample.clientWith none none none (some Sample.notFoundError))
        { State := Sample.stateOf (some (Sample.domainOf "team_1" "prj_1" "example.com")) }
        { State := Sample.stateOf (some (Sample.domainOf "team_1" "prj_1" "example.com")),
          Diagnostics := [] }).1.State.Raw = none) ∧
    (projectDomainResource.Delete
        (Sample.clientWith none none none (some Sample.notFoundError))
        { State := Sample.stateOf (some (Sample.domainOf "team_2" "prj_2" "example.org")) }
        { State := Sample.stateOf (some (Sample.domainOf "team_2" "prj_2" "example.org")),
          Diagnostics := [] }).2
      = [client.Call.DeleteProjectDomain "prj_2" "example.org" "team_2"] ∧
    (diag.HasError (projectDomainResource.Delete
        (Sample.clientWith none none none (some Sample.serverError))
        { State := Sample.stateOf (some (Sample.domainOf "team_1" "prj_1" "example.com")) }
        { State := Sample.stateOf (some (Sample.domainOf "team_1" "prj_1" "example.com")),
          Diagnostics := [] }).1.Diagnostics = true ↔
      ∃ e, (Sample.clientWith none none none (some Sample.serverError)).DeleteProjectDomain
          "prj_1" "example.com" "team_1" = some e ∧ client.NotFound (some e) = false) :=
  ⟨(Delete_not_found_is_success (Sample.clientWith none none none (some Sample.notFoundError))
      { State := Sample.stateOf (some (Sample.domainOf "team_1" "prj_1" "example.com")) }
      { State := Sample.stateOf (some (Sample.domainOf "team_1" "prj_1" "example.com")),
        Diagnostics := [] }).2.1 (by decide) (by decide) (by decide),
   (Delete_not_found_is_success (Sample.clientWith none none none (some Sample.notFoundError))
      { State := Sample.stateOf (some (Sample.domainOf "team_2" "prj_2" "example.org")) }
      { State := Sample.stateOf (some (Sample.domainOf "team_2" "prj_2" "example.org")),
        Diagnostics := [] }).1 (by decide) (by decide),
   (Delete_not_found_is_success (Sample.clientWith none none none (some Sample.serverError))
      { State := Sample.stateOf (some (Sample.domainOf "team_1" "prj_1" "example.com")) }
      { State := Sample.stateOf (some (Sample.domainOf "team_1" "prj_1" "example.com")),
        Diagnostics := [] }).2.2.2 (by decide) (by decide)⟩

/-! ## The file fingerprint -/

namespace hex

theorem hextable_getD_mem (i : Nat) (hi : i < 16) : hextable.getD i '0' ∈ hextable := by
  interval_cases i <;> decide

theorem length_EncodeToString (src : List Byte) :
    (EncodeToString src).length = 2 * src.length := by
  unfold EncodeToString
  induction src with
  | nil => rfl
  | cons v rest ih =>
    simp only [String.length, List.flatMap_cons, List.length_append, List.length_cons,
      List.length_nil] at ih ⊢
    omega

theorem EncodeToString_lowercase (src : List Byte) :
    ∀ c ∈ (EncodeToString src).data, c ∈ hextable := by
  intro c hc
  simp only [EncodeToString, List.mem_flatMap] at hc
  obtain ⟨v, _, hv⟩ := hc
  have hhi : v.val >>> 4 < 16 := by
    rw [Nat.shiftRight_eq_div_pow]
    have := v.isLt
    omega
  have hlo : v.val &&& 0x0f < 16 := by
    have := @Nat.and_le_right v.val 0x0f
    omega
  simp only [List.mem_cons, List.mem_singleton, List.not_mem_nil, or_false] at hv
  rcases hv with hv | hv
  · rw [hv]; exact hextable_getD_mem _ hhi
  · rw [hv]; exact hextable_getD_mem _ hlo

end hex

/-- C8: when the configuration decodes, `os.ReadFile` returns the bytes `b` for the
configured path and the state encodes, `Read` stores a file map with exactly one entry,
keyed by the path, whose value is the decimal length of `b`, then "~", then the hex
encoding of `Sum b`, which is 40 characters long and made of the digits 0-9a-f; the value
is `fingerprint Sum b`, a function of the content alone. -/
theorem fileDataSource_Read_fingerprint
    (ReadFile : String → List Byte × Option GoError) (Sum : List Byte → sha1.Digest)
    (req : datasource.ReadRequest) (resp : datasource.ReadResponse) (b : List Byte)
    (h0 : diag.HasError resp.Diagnostics = false)
    (hdec : diag.HasError req.Config.Get.2 = false)
    (hread : ReadFile req.Config.Get.1.Path.Value = (b, none))
    (henc : ∀ v, diag.HasError (resp.State.Schema.encode v) = false) :
    (∃ fd, (fileDataSource.Read ReadFile Sum req resp).State.Raw = some fd ∧
      fd.File = [(req.Config.Get.1.Path.Value, fileDataSource.fingerprint Sum b)]) ∧
    fileDataSource.fingerprint Sum b =
      Nat.repr b.length ++ "~" ++ hex.EncodeToString (Sum b).val ∧
    (hex.EncodeToString (Sum b).val).length = 40 ∧
    (∀ c ∈ (hex.EncodeToString (Sum b).val).data, c ∈ "0123456789abcdef".data) := by
  have hE : diag.HasError (diag.Append resp.Diagnostics req.Config.Get.2) = false := by
    rw [diag.HasError_Append, h0, hdec]; rfl
  refine ⟨?_, rfl, ?_, hex.EncodeToString_lowercase _⟩
  · unfold fileDataSource.Read
    simp only [hE, hread]
    simp [tfsdk.State.Set, henc, fileDataSource.fingerprint]
  · rw [hex.length_EncodeToString, (Sum b).property]
    rfl

theorem fileDataSource_Read_fingerprint_witness :
    (∃ fd, (fileDataSource.Read Sample.readFile Sample.sum
        { Config := Sample.configOf "index.html" }
        { State := { Raw := none, Schema := Sample.fileSchema }, Diagnostics := [] }).State.Raw
        = some fd ∧
      fd.File = [("index.html", "2~0202020202020202020202020202020202020202")]) :=
  (fileDataSource_Read_fingerprint Sample.readFile Sample.sum
    { Config := Sample.configOf "index.html" }
    { State := { Raw := none, Schema := Sample.fileSchema }, Diagnostics := [] }
    [104, 105] (by decide) (by decide) (by decide) (fun _ => rfl)).1

/-! ## `ImportState` on a well-formed id, compared with `Read` -/

namespace projectDomainResource

theorem ImportState_of_error (r : client.Client) (h : Conversions) (id : String)
    (resp : resource.ImportStateResponse) (teamID projectID domain : String) (e : GoError)
    (hid : splitProjectDomainID id = (teamID, projectID, domain, true))
    (he : (r.GetProjectDomain projectID domain teamID).2 = some e) :
    ImportState r h { ID := id } resp =
      ({ State := resp.State,
         Diagnostics := diag.AddError resp.Diagnostics
           "Error reading project domain"
           ("Could not get domain " ++ domain ++ " for project " ++ projectID ++
              ", unexpected error: " ++ e.Error) },
       [client.Call.GetProjectDomain projectID domain teamID]) := by
  simp [ImportState, hid, he]

theorem ImportState_of_success (r : client.Client) (h : Conversions) (id : String)
    (resp : resource.ImportStateResponse) (teamID projectID domain : String)
    (hid : splitProjectDomainID id = (teamID, projectID, domain, true))
    (he : (r.GetProjectDomain projectID domain teamID).2 = none) :
    ImportState r h { ID := id } resp =
      ({ State := (resp.State.Set (h.convertResponseToProjectDomain
            (r.GetProjectDomain projectID domain teamID).1)).1,
         Diagnostics := diag.Append resp.Diagnostics
           (resp.State.Set (h.convertResponseToProjectDomain
            (r.GetProjectDomain projectID domain teamID).1)).2 },
       [client.Call.GetProjectDomain projectID domain teamID]) := by
  simp [ImportState, hid, he]

end projectDomainResource

/-- C9 (as stated, refuted): for the well-formed id "prj_1/example.com" and a client whose
`GetProjectDomain` returns NotFound, `ImportState` ends with an error diagnostic and leaves
the state alone, while `Read` on a state holding the parsed triple removes the resource and
reports no error. -/
theorem ImportState_differs_from_Read_on_not_found :
    splitProjectDomainID "prj_1/example.com" = ("", "prj_1", "example.com", true) ∧
    (Sample.stateOf (some (Sample.domainOf "" "prj_1" "example.com"))).Get
      = (Sample.domainOf "" "prj_1" "example.com", []) ∧
    client.NotFound ((Sample.clientWith none none (some Sample.notFoundError) none).GetProjectDomain
      "prj_1" "example.com" "").2 = true ∧
    diag.HasError (projectDomainResource.ImportState
      (Sample.clientWith none none (some Sample.notFoundError) none) Sample.conversions
      { ID := "prj_1/example.com" }
      { State := Sample.stateOf (some (Sample.domainOf "" "prj_1" "example.com")),
        Diagnostics := [] }).1.Diagnostics = true ∧
    diag.HasError (projectDomainResource.Read
      (Sample.clientWith none none (some Sample.notFoundError) none) Sample.conversions
      { State := Sample.stateOf (some (Sample.domainOf "" "prj_1" "example.com")) }
      { State := Sample.stateOf (some (Sample.domainOf "" "prj_1" "example.com")),
        Diagnostics := [] }).1.Diagnostics = false ∧
    (projectDomainResource.ImportState
      (Sample.clientWith none none (some Sample.notFoundError) none) Sample.conversions
      { ID := "prj_1/example.com" }
      { State := Sample.stateOf (some (Sample.domainOf "" "prj_1" "example.com")),
        Diagnostics := [] }).1.State.Raw = some (Sample.domainOf "" "prj_1" "example.com") ∧
    (projectDomainResource.Read
      (Sample.clientWith none none (some Sample.notFoundError) none) Sample.conversions
      { State := Sample.stateOf (some (Sample.domainOf "" "prj_1" "example.com")) }
      { State := Sample.stateOf (some (Sample.domainOf "" "prj_1" "example.com")),
        Diagnostics := [] }).1.State.Raw = none := by
  refine ⟨by decide, by decide, by decide, by decide, by decide, by decide, by decide⟩

/-- C9 (amended): for a well-formed id, `ImportState` makes the `GetProjectDomain` call that
`Read` makes on a state holding the parsed triple; when that call succeeds or fails with an
error other than NotFound, both end with the same state and agree on whether an error
diagnostic is present; when it returns NotFound, `ImportState` ends with an error
diagnostic and the state it was handed, whereas `Read` removes the resource without an
error. -/
theorem ImportState_agrees_with_Read_unless_not_found (r : client.Client) (h : Conversions)
    (id teamID projectID domain : String) (req : resource.ReadRequest)
    (state : tfsdk.State ProjectDomain) (diags : diag.Diagnostics)
    (hid : splitProjectDomainID id = (teamID, projectID, domain, true))
    (h0 : diag.HasError diags = false)
    (hdec : diag.HasError req.State.Get.2 = false)
    (ht : req.State.Get.1.TeamID.Value = teamID)
    (hp : req.State.Get.1.ProjectID.Value = projectID)
    (hd : req.State.Get.1.Domain.Value = domain) :
    (projectDomainResource.ImportState r h { ID := id }
        { State := state, Diagnostics := diags }).2
      = (projectDomainResource.Read r h req { State := state, Diagnostics := diags }).2 ∧
    (client.NotFound (r.GetProjectDomain projectID domain teamID).2 = false →
      (projectDomainResource.ImportState r h { ID := id }
          { State := state, Diagnostics := diags }).1.State
        = (projectDomainResource.Read r h req { State := state, Diagnostics := diags }).1.State ∧
      diag.HasError (projectDomainResource.ImportState r h { ID := id }
          { State := state, Diagnostics := diags }).1.Diagnostics
        = diag.HasError (projectDomainResource.Read r h req
          { State := state, Diagnostics := diags }).1.Diagnostics) ∧
    (client.NotFound (r.GetProjectDomain projectID domain teamID).2 = true →
      diag.HasError (projectDomainResource.ImportState r h { ID := id }
          { State := state, Diagnostics := diags }).1.Diagnostics = true ∧
      (projectDomainResource.ImportState r h { ID := id }
          { State := state, Diagnostics := diags }).1.State = state ∧
      diag.HasError (projectDomainResource.Read r h req
          { State := state, Diagnostics := diags }).1.Diagnostics = false ∧
      (projectDomainResource.Read r h req
          { State := state, Diagnostics := diags }).1.State = state.RemoveResource) := by
  subst ht hp hd
  have hE : diag.HasError (diag.Append
      ({ State := state, Diagnostics := diags } : resource.ReadResponse).Diagnostics
      req.State.Get.2) = false := by
    rw [diag.HasError_Append]
    simp [h0, hdec]
  cases he : (r.GetProjectDomain req.State.Get.1.ProjectID.Value
      req.State.Get.1.Domain.Value req.State.Get.1.TeamID.Value).2 with
  | none =>
    rw [projectDomainResource.ImportState_of_success r h id _ _ _ _ hid he,
      projectDomainResource.Read_of_success r h req _ hE he]
    refine ⟨rfl, fun _ => ⟨rfl, ?_⟩, fun hc => ?_⟩
    · simp [diag.HasError_Append, h0, hdec]
    · cases hc
  | some e =>
    rw [projectDomainResource.ImportState_of_error r h id _ _ _ _ e hid he]
    cases hN : client.NotFound (some e) with
    | false =>
      rw [projectDomainResource.Read_of_other_error r h req _ e hE he hN]
      refine ⟨rfl, fun _ => ⟨rfl, ?_⟩, fun hc => ?_⟩
      · rw [diag.HasError_AddError, diag.HasError_AddError]
      · cases hc
    | true =>
      rw [projectDomainResource.Read_of_not_found r h req _ hE (by rw [he]; exact hN)]
      refine ⟨rfl, fun hc => ?_, fun _ => ⟨diag.HasError_AddError _ _ _, rfl, ?_, rfl⟩⟩
      · cases hc
      · simpa using hE

theorem ImportState_agrees_with_Read_unless_not_found_witness :
    splitProjectDomainID "team_1/prj_1/example.com"
      = ("team_1", "prj_1", "example.com", true) ∧
    client.NotFound ((Sample.clientWith none none (some Sample.serverError) none).GetProjectDomain
      "prj_1" "example.com" "team_1").2 = false ∧
    ((projectDomainResource.ImportState
        (Sample.clientWith none none (some Sample.serverError) none) Sample.conversions
        { ID := "team_1/prj_1/example.com" }
        { State := Sample.stateOf none, Diagnostics := [] }).1.State
      = (projectDomainResource.Read
        (Sample.clientWith none none (some Sample.serverError) none) Sample.conversions
        { State := Sample.stateOf (some (Sample.domainOf "team_1" "prj_1" "example.com")) }
        { State := Sample.stateOf none, Diagnostics := [] }).1.State ∧
     diag.HasError (projectDomainResource.ImportState
        (Sample.clientWith none none (some Sample.serverError) none) Sample.conversions
        { ID := "team_1/prj_1/example.com" }
        { State := Sample.stateOf none, Diagnostics := [] }).1.Diagnostics
      = diag.HasError (projectDomainResource.Read
        (Sample.clientWith none none (some Sample.serverError) none) Sample.conversions
        { State := Sample.stateOf (some (Sample.domainOf "team_1" "prj_1" "example.com")) }
        { State := Sample.stateOf none, Diagnostics := [] }).1.Diagnostics) :=
  ⟨by decide, by decide,
   (ImportState_agrees_with_Read_unless_not_found
      (Sample.clientWith none none (some Sample.serverError) none) Sample.conversions
      "team_1/prj_1/example.com" "team_1" "prj_1" "example.com"
      { State := Sample.stateOf (some (Sample.domainOf "team_1" "prj_1" "example.com")) }
      (Sample.stateOf none) [] (by decide) (by decide) (by decide) (by decide) (by decide)
      (by decide)).2.1 (by decide)⟩

/-! ## `splitProjectDomainID`: empty segments -/

namespace strings

theorem splitChars_of_not_mem (sep : Char) (l : List Char) (hl : sep ∉ l) :
    splitChars sep l = [l] := by
  induction l with
  | nil => rfl
  | cons c cs ih =>
    have hc : c ≠ sep := fun hEq => hl (by simp [hEq])
    have hcs : sep ∉ cs := fun hm => hl (List.mem_cons_of_mem _ hm)
    simp only [splitChars, if_neg hc, ih hcs]

theorem splitChars_append_sep (sep : Char) (a b : List Char) (ha : sep ∉ a) :
    splitChars sep (a ++ sep :: b) = a :: splitChars sep b := by
  induction a with
  | nil => simp [splitChars]
  | cons c cs ih =>
    have hc : c ≠ sep := fun hEq => ha (by simp [hEq])
    have hcs : sep ∉ cs := fun hm => ha (List.mem_cons_of_mem _ hm)
    have step : ∀ t : List Char, splitChars sep (c :: t) =
        match splitChars sep t with
        | [] => [[c]]
        | seg :: rest => (c :: seg) :: rest := by
      intro t
      simp only [splitChars, if_neg hc]
    rw [List.cons_append, step, ih hcs]

end strings

/-- C11: empty segments are accepted, so the parser is not injective on accepted ids: for
every `p` and `d` without "/", the two distinct ids `"/" ++ p ++ "/" ++ d` and
`p ++ "/" ++ d` both parse to `("", p, d, true)`; and the id "/" is accepted with an empty
projectID and an empty domain. -/
theorem splitProjectDomainID_empty_segments (p d : String)
    (hp : '/' ∉ p.data) (hd : '/' ∉ d.data) :
    splitProjectDomainID ("/" ++ p ++ "/" ++ d) = ("", p, d, true) ∧
    splitProjectDomainID (p ++ "/" ++ d) = ("", p, d, true) ∧
    "/" ++ p ++ "/" ++ d ≠ p ++ "/" ++ d ∧
    splitProjectDomainID "/" = ("", "", "", true) := by
  have h3 : strings.Split ("/" ++ p ++ "/" ++ d) '/' = ["", p, d] := by
    have hdata : ("/" ++ p ++ "/" ++ d).data = [] ++ '/' :: (p.data ++ '/' :: d.data) := by
      simp
    simp only [strings.Split, hdata]
    rw [strings.splitChars_append_sep '/' [] _ (by simp),
      strings.splitChars_append_sep '/' p.data d.data hp,
      strings.splitChars_of_not_mem '/' d.data hd]
    rfl
  have h2 : strings.Split (p ++ "/" ++ d) '/' = [p, d] := by
    have hdata : (p ++ "/" ++ d).data = p.data ++ '/' :: d.data := by
      simp
    simp only [strings.Split, hdata]
    rw [strings.splitChars_append_sep '/' p.data d.data hp,
      strings.splitChars_of_not_mem '/' d.data hd]
    rfl
  refine ⟨?_, ?_, ?_, by decide⟩
  · simp [splitProjectDomainID, h3]
  · simp [splitProjectDomainID, h2]
  · intro hEq
    have hlen := congrArg String.length hEq
    have hone : "/".length = 1 := rfl
    simp only [String.length_append, hone] at hlen
    omega

theorem splitProjectDomainID_empty_segments_witness :
    ('/' ∉ "proj1".data ∧ '/' ∉ "example.com".data) ∧
    splitProjectDomainID "/proj1/example.com" = ("", "proj1", "example.com", true) ∧
    splitProjectDomainID "proj1/example.com" = ("", "proj1", "example.com", true) ∧
    "/proj1/example.com" ≠ "proj1/example.com" :=
  ⟨⟨by decide, by decide⟩,
   (splitProjectDomainID_empty_segments "proj1" "example.com" (by decide) (by decide)).1,
   (splitProjectDomainID_empty_segments "proj1" "example.com" (by decide) (by decide)).2.1,
   (splitProjectDomainID_empty_segments "proj1" "example.com" (by decide) (by decide)).2.2.1⟩

end Vercel
